import Mathlib

/-
  Verification of canyonite's GHL → Shopify media sync (`sync.js`).
  The definitions below are a shallow embedding of the JavaScript source:
  pure helpers become Lean functions; the network-facing pieces (`gql`,
  `fetchGhlFiles`, the main loop) become functions over an explicit
  environment describing the outcome of each remote call, and they return
  a trace of the calls, delays and log events the script would produce.
  JavaScript strings are modelled by `String`, with `.trim()`, `.slice`
  and `.toLowerCase()` mapped to the corresponding character-level Lean
  operations; JS `a || b` on strings (empty string is falsy) is modelled
  explicitly by `jsOr` / `jsOrD`.
-/

namespace Canyonite

/-- JS truthiness of an optional string field: present and non-empty. -/
def truthy : Option String → Bool
  | none => false
  | some s => s ≠ ""

/-- JS `a || b` where `a` is an optional string field and `b` an option. -/
def jsOr (a b : Option String) : Option String :=
  if truthy a then a else b

/-- JS `a || d` where `a` is an optional string field and `d` a string default. -/
def jsOrD (a : Option String) (d : String) : String :=
  match a with
  | some s => if s = "" then d else s
  | none => d

/-- JS `s.trim()`: strip leading and trailing whitespace, modelled on the
character list (`String.trim` does the same through positions the kernel
cannot evaluate; this form keeps concrete instances computable). -/
def jsTrim (s : String) : String :=
  String.mk (((s.toList.dropWhile Char.isWhitespace).reverse.dropWhile
    Char.isWhitespace).reverse)

/-! ### Secret masking (`mask`, part_001 lines 13–17 / part_000 lines 46–50)

`const mask = (s) => { if (!s) return '(empty)'; if (s.length <= 6) return '***';
 return s.slice(0, 3) + '***' + s.slice(-3); }`
JS `!s` is true exactly for the empty string here; `slice(0,3)` / `slice(-3)`
are modelled on the character list. -/
def mask (s : String) : String :=
  if s = "" then "(empty)"
  else if s.length ≤ 6 then "***"
  else String.mk (s.toList.take 3) ++ "***" ++ String.mk (s.toList.drop (s.length - 3))

/-! ### Media classifier (`guessMediaType`, part_001 lines 99–110) -/

/-- Source: `const IMAGE_EXT = new Set(['.jpg', '.jpeg', '.png', '.webp', '.gif'])`. -/
def IMAGE_EXT : List String := [".jpg", ".jpeg", ".png", ".webp", ".gif"]

/-- Source: `const VIDEO_EXT = new Set(['.mp4', '.mov', '.webm', '.m4v'])`. -/
def VIDEO_EXT : List String := [".mp4", ".mov", ".webm", ".m4v"]

/-- JS `s.toLowerCase()`, modelled as per-character lowercasing of the
character list (`String.toLower` does exactly this, but through a recursor the
kernel cannot evaluate; this form keeps concrete instances computable). -/
def jsToLower (s : String) : String :=
  String.mk (s.toList.map Char.toLower)

/-- A character the regex class `[a-z0-9]` accepts. -/
def isExtChar (c : Char) : Bool :=
  (Char.ofNat 97 ≤ c && c ≤ Char.ofNat 122) || (Char.ofNat 48 ≤ c && c ≤ Char.ofNat 57)

/-- Characters strictly after the last `'.'` of the list, or `none` if no dot. -/
def afterLastDot : List Char → Option (List Char)
  | [] => none
  | c :: cs =>
    match afterLastDot cs with
    | some r => some r
    | none => if c = '.' then some cs else none

/-- Source: `const extOf = (n) => (String(n).toLowerCase().match(/\.[a-z0-9]+$/)?.[0]) || ''`.
A match of `\.[a-z0-9]+$` cannot contain a second dot, so it is exactly the
last dot together with a non-empty all-`[a-z0-9]` remainder of the lowercased
name; otherwise the result is the empty string. -/
def extOf (n : String) : String :=
  match afterLastDot (jsToLower n).toList with
  | some suf =>
    if suf ≠ [] && suf.all isExtChar then String.mk ('.' :: suf) else ""
  | none => ""

inductive MediaType where
  | IMAGE
  | VIDEO
  | EXTERNAL_VIDEO
  deriving DecidableEq, Repr

/-- JS `s.startsWith(p)`, modelled on the character list. -/
def jsStartsWith (s p : String) : Bool :=
  p.toList.isPrefixOf s.toList

/-- The body of `guessMediaType` (part_001 lines 103–110) after its two
resolution steps (`const mime = (f.mime || f.type || '').toLowerCase()` and
`const name = f.name || filenameFromUrl(f.url)`): the decision on the resolved
declared MIME string and resolved filename. -/
def guessMediaTypeCore (mime name : String) : MediaType :=
  let m := jsToLower mime
  let ext := extOf name
  if jsStartsWith m "image/" || IMAGE_EXT.contains ext then .IMAGE
  else if jsStartsWith m "video/" || VIDEO_EXT.contains ext then .VIDEO
  else .EXTERNAL_VIDEO

/-! ### Existing-media alt set and the diff (`getExistingMediaAlts` part_001
lines 184–197, `toAttach` part_001 line 280) -/

/-- One `CreateMediaInput` built by the grouping loop (part_001 line 256). -/
structure MediaInput where
  alt : String
  mediaContentType : MediaType
  originalSource : String
  deriving DecidableEq, Repr

/-- The set construction of `getExistingMediaAlts` (part_001 lines 193–196): from the
`alt` of each media edge (`e.node?.alt || ''`), trim, and keep only non-empty
strings. The JS `Set` is modelled as the list of its elements; only membership
is used downstream. -/
def getExistingMediaAlts (edgeAlts : List (Option String)) : List String :=
  ((edgeAlts.map (fun a => jsTrim (jsOrD a ""))).filter (fun s => s.length ≠ 0)).dedup

/-- Source: `const toAttach = allMedias.filter((m) => !existingAlts.has((m.alt || '').trim()))`
(part_001 line 280). -/
def toAttachOf (existingAlts : List String) (allMedias : List MediaInput) : List MediaInput :=
  allMedias.filter (fun m => !(existingAlts.contains (jsTrim (jsOrD (some m.alt) ""))))

/-! ### Batch slicing (part_001 lines 293–298)

`for (let i = 0; i < toAttach.length; i += MEDIA_BATCH_SIZE) {
   const chunk = toAttach.slice(i, i + MEDIA_BATCH_SIZE); ... }`
The sequence of `chunk`s the loop produces; `slice(i, i+B)` of the remaining
list is `take B`, and advancing `i` by `B` is `drop B`. For `B = 0` the JS
loop would never terminate; the model returns `[]` there and every theorem
about it assumes `0 < B` (the configured default is 8). -/
def chunks (B : Nat) (l : List MediaInput) : List (List MediaInput) :=
  if hl : l = [] then []
  else if hB : B = 0 then []
  else
    l.take B :: chunks B (l.drop B)
termination_by l.length
decreasing_by
  have hpos : 0 < l.length := List.length_pos.mpr hl
  simp only [List.length_drop]
  omega

/-! ### Error taxonomy

The source throws plain `Error`s with distinct messages; one constructor per
throw site. `gqlHttp` / `ghlHttp` carry the HTTP status of the failing
response (the spec's `RemoteCallError`), `gqlErrorsExhausted` is the
application-level `json.errors` payload surfaced after retries,
`ghlShape` is the spec's `SourceFormatError`, and `mediaUserErrors` is the
spec's `CatalogValidationError`. -/
inductive SyncError where
  | gqlHttp (status : Nat)
  | gqlErrorsExhausted
  | ghlHttp (status : Nat)
  | ghlShape
  | mediaUserErrors
  deriving DecidableEq, Repr

instance {ε α : Type} [DecidableEq ε] [DecidableEq α] : DecidableEq (Except ε α) := fun a b =>
  match a, b with
  | .ok x, .ok y =>
    if h : x = y then .isTrue (by rw [h]) else .isFalse (by intro hc; cases hc; exact h rfl)
  | .error x, .error y =>
    if h : x = y then .isTrue (by rw [h]) else .isFalse (by intro hc; cases hc; exact h rfl)
  | .ok _, .error _ => .isFalse (by intro hc; cases hc)
  | .error _, .ok _ => .isFalse (by intro hc; cases hc)

/-! ### RPC client with retry (`gql`, part_001 lines 128–165) -/

/-- What one attempt of `gql`'s `fetch` observes: a non-ok HTTP response with
some status, an ok response whose JSON carries an `errors` field, or an ok
response with data (data abstracted to a `Nat` tag). -/
inductive AttemptOutcome where
  | httpErr (status : Nat)
  | gqlErrors
  | ok (data : Nat)
  deriving DecidableEq, Repr

/-- Source: `const retryable = [429, 500, 502, 503, 504].includes(res.status)`. -/
def RETRYABLE : List Nat := [429, 500, 502, 503, 504]

/-- The trace of one `gql(query, variables)` call: its final result, the
backoff delays slept (in order), and the number of fetch attempts made. -/
structure GqlTrace where
  result : Except SyncError Nat
  delays : List Nat
  attempts : Nat
  deriving DecidableEq, Repr

/-- The function `gql` (part_001 lines 128–165), over the sequence of per-attempt network
outcomes. `maxRetries` is `MAX_RETRIES`, `base` the backoff base (600 in
part_001, 500 in sync.js — kept as a parameter). On a non-ok response with a
retryable status and `attempt < MAX_RETRIES` it sleeps
`base * 2 ^ (attempt - 1)` and recurses with `attempt + 1`; likewise on an
`errors` payload; otherwise it throws. -/
def gql (maxRetries base : Nat) (outcomes : Nat → AttemptOutcome) (attempt : Nat) : GqlTrace :=
  match outcomes attempt with
  | .ok d => ⟨.ok d, [], 1⟩
  | .httpErr s =>
    if h : RETRYABLE.contains s ∧ attempt < maxRetries then
      let w := base * 2 ^ (attempt - 1)
      let rest := gql maxRetries base outcomes (attempt + 1)
      ⟨rest.result, w :: rest.delays, rest.attempts + 1⟩
    else ⟨.error (.gqlHttp s), [], 1⟩
  | .gqlErrors =>
    if h : attempt < maxRetries then
      let w := base * 2 ^ (attempt - 1)
      let rest := gql maxRetries base outcomes (attempt + 1)
      ⟨rest.result, w :: rest.delays, rest.attempts + 1⟩
    else ⟨.error .gqlErrorsExhausted, [], 1⟩
termination_by maxRetries - attempt
decreasing_by
  · omega
  · omega

/-! ### Asset Source fetcher (`fetchGhlFiles`, part_001 lines 215–239) -/

/-- One element of the Asset Source's JSON list, with every field the source
inspects; `none` on the element itself (`f &&`) is modelled at the list level
as `Option RawFile`. -/
structure RawFile where
  url : Option String := none
  link : Option String := none
  path : Option String := none
  name : Option String := none
  mime : Option String := none
  type : Option String := none
  deriving DecidableEq, Repr

/-- The shape of the Asset Source's parsed JSON body:
a top-level array, an object with a `files` array, or anything else
(`Array.isArray(json) ? json : Array.isArray(json.files) ? json.files : null`). -/
inductive GhlBody where
  | topArray (l : List (Option RawFile))
  | filesArray (l : List (Option RawFile))
  | notAList
  deriving DecidableEq, Repr

/-- The Asset Source's HTTP response: `res.ok`, `res.status`, parsed body. -/
structure GhlResponse where
  ok : Bool
  status : Nat
  body : GhlBody
  deriving DecidableEq, Repr

/-- A normalized file `{ url, name, mime }` (part_001 lines 233–238). -/
structure NormFile where
  url : String
  name : String
  mime : String
  deriving DecidableEq, Repr

/-- The element filter `f && (f.url || f.link || f.path)` (part_001 line 232). -/
def hasLoc : Option RawFile → Bool
  | none => false
  | some f => truthy f.url || truthy f.link || truthy f.path

/-- The per-element normalization (part_001 lines 233–238). `fname` stands for
`filenameFromUrl` (URL parsing kept abstract; no claim depends on its value). -/
def normalizeFile (fname : String → String) (f : RawFile) : NormFile :=
  let url := jsOrD f.url (jsOrD f.link (jsOrD f.path ""))
  { url := url
    name := jsOrD f.name (fname url)
    mime := jsOrD f.mime (jsOrD f.type "") }

/-- The trace of the single `fetchGhlFiles()` call: result, number of HTTP
requests to the Asset Source endpoint, and backoff delays slept. `resps n` is
the response the n-th request would receive; the source body performs exactly
one `fetch` with no retry wrapper, so only `resps 1` is ever consumed. -/
structure GhlTrace where
  result : Except SyncError (List NormFile)
  requests : Nat
  delays : List Nat
  deriving DecidableEq, Repr

/-- The function `fetchGhlFiles` (part_001 lines 215–239): one fetch; non-ok status throws
immediately; a body that is neither an array nor `{files: [...]}` throws the
shape error; otherwise elements without a `url`/`link`/`path` location are
filtered out and the rest normalized. -/
def fetchGhlFiles (fname : String → String) (resps : Nat → GhlResponse) : GhlTrace :=
  let res := resps 1
  if !res.ok then ⟨.error (.ghlHttp res.status), 1, []⟩
  else
    match res.body with
    | .notAList => ⟨.error .ghlShape, 1, []⟩
    | .topArray l => ⟨.ok (((l.filter hasLoc).filterMap id).map (normalizeFile fname)), 1, []⟩
    | .filesArray l => ⟨.ok (((l.filter hasLoc).filterMap id).map (normalizeFile fname)), 1, []⟩

/-! ### Sync orchestrator (main loop, part_001 lines 242–307)

The loop body's three Catalog Operation calls (`findProductIdByHandleOrSku`,
`getExistingMediaAlts`' query, `attachMediaBatch`) each go through `gql` and
either return a value or throw; their outcomes for one group are collected in
`GroupEnv`. The observable behaviour of a run is its trace: the ordered list
of per-group events (warnings, logs and — crucially — each attach mutation
actually issued), the `attachedTotal` / `skippedTotal` counters, and whether
an error unwound to the top-level `.catch` (which calls `process.exit(1)`). -/

/-- Outcomes of the remote calls made while processing one `CodeGroup`:
`resolve` is `findProductIdByHandleOrSku` (`none` = no product, not an
error), `mediaEdges` is the raw `alt` list of the product's media edges
consumed by `getExistingMediaAlts`, and `attach k` is the outcome of the
`k`-th (1-based) `attachMediaBatch` mutation for this group. -/
structure GroupEnv where
  resolve : Except SyncError (Option String)
  mediaEdges : Except SyncError (List (Option String))
  attach : Nat → Option SyncError

/-- One group the main loop iterates over (`mediaByCode` entry) together with
the remote-call outcomes its processing will observe. -/
structure GroupTask where
  code : String
  medias : List MediaInput
  env : GroupEnv

/-- Observable events of a run, in emission order. `attachCall` records an
actual `productCreateMedia` mutation issued to the Catalog Service. -/
inductive Event where
  | warnNoProduct (code : String)
  | nothingNew (code : String)
  | dryRunWould (code : String) (count : Nat)
  | attachCall (productId : String) (batch : List MediaInput)
  | attachedMsg (chunkLen total : Nat)
  | summary (attached skipped : Nat)
  deriving DecidableEq, Repr

/-- The attach loop over the chunk list (part_001 lines 293–298): each chunk
issues one mutation (`attachCall`); on success the chunk length is added to
`attachedTotal` and the progress line logged; a throw aborts. Returns
(events, attached-delta, error?). -/
def attachLoop (env : GroupEnv) (pid : String) (total : Nat) :
    List (List MediaInput) → Nat → List Event × Nat × Option SyncError
  | [], _ => ([], 0, none)
  | c :: cs, k =>
    match env.attach k with
    | some e => ([.attachCall pid c], 0, some e)
    | none =>
      let (evs, a, err) := attachLoop env pid total cs (k + 1)
      (.attachCall pid c :: .attachedMsg c.length total :: evs, c.length + a, err)

/-- The body of the `for (const [code, allMedias] of mediaByCode.entries())`
loop (part_001 lines 270–299) for one group. Returns
(events, attached-delta, skipped-delta, error?). -/
def processGroup (dryRun : Bool) (B : Nat) (g : GroupTask) :
    List Event × Nat × Nat × Option SyncError :=
  match g.env.resolve with
  | .error e => ([], 0, 0, some e)
  | .ok none => ([.warnNoProduct g.code], 0, 0, none)
  | .ok (some pid) =>
    match g.env.mediaEdges with
    | .error e => ([], 0, 0, some e)
    | .ok edges =>
      let existingAlts := getExistingMediaAlts edges
      let toAttach := toAttachOf existingAlts g.medias
      let skipped := g.medias.length - toAttach.length
      if toAttach.isEmpty then ([.nothingNew g.code], 0, skipped, none)
      else if dryRun then ([.dryRunWould g.code toAttach.length], 0, skipped, none)
      else
        let (evs, a, err) := attachLoop g.env pid toAttach.length (chunks B toAttach) 1
        (evs, a, skipped, err)

/-- Accumulated state of a run: trace, counters, and the error (if any) that
unwound to the top-level handler. -/
structure RunResult where
  events : List Event
  attached : Nat
  skipped : Nat
  err : Option SyncError
  deriving DecidableEq, Repr

/-- The main group loop: groups are processed strictly in order; the first
uncaught error aborts the loop, so later groups are never touched. -/
def runGroups (dryRun : Bool) (B : Nat) : List GroupTask → RunResult
  | [] => ⟨[], 0, 0, none⟩
  | g :: gs =>
    match processGroup dryRun B g with
    | (evs, a, s, none) =>
      let r := runGroups dryRun B gs
      ⟨evs ++ r.events, a + r.attached, s + r.skipped, r.err⟩
    | (evs, a, s, some e) => (⟨evs, a, s, some e⟩ : RunResult)

/-- The whole run after grouping (part_001 lines 267–307): run all groups;
when no error unwound, the summary line with the two totals is printed. -/
def runMain (dryRun : Bool) (B : Nat) (tasks : List GroupTask) : RunResult :=
  let r := runGroups dryRun B tasks
  match r.err with
  | none => ⟨r.events ++ [.summary r.attached r.skipped], r.attached, r.skipped, none⟩
  | some e => ⟨r.events, r.attached, r.skipped, some e⟩

/-- The process exit contract: the `.catch` handler calls `process.exit(1)`;
otherwise the process ends normally with status 0. -/
def exitCode (r : RunResult) : Nat :=
  match r.err with
  | none => 0
  | some _ => 1

/-- Recognizer for the attach-mutation events of a trace. -/
def isAttachCall : Event → Bool
  | .attachCall _ _ => true
  | _ => false

/-! ## Theorems -/

/-- A string starting with `"video/"` cannot also start with `"image/"`. -/
theorem not_image_of_video (s : String) (h : jsStartsWith s "video/" = true) :
    jsStartsWith s "image/" = false := by
  have hv : "video/".toList <+: s.toList := by
    simpa [jsStartsWith] using h
  rw [jsStartsWith, ← Bool.not_eq_true]
  intro hc
  have hi : "image/".toList <+: s.toList := by
    simpa using hc
  have h1 := List.prefix_iff_eq_take.mp hv
  have h2 := List.prefix_iff_eq_take.mp hi
  have hlen : ("video/".toList).length = ("image/".toList).length := by decide
  have e : ("video/".toList : List Char) = "image/".toList := by
    rw [h1, h2, hlen]
  exact absurd e (by decide)

/-- C2: `guessMediaType` is total — every (mime, filename) pair yields exactly
one of IMAGE / VIDEO / EXTERNAL_VIDEO — and a declared MIME type starting with
`image/` forces IMAGE. But a declared MIME starting with `video/` yields VIDEO
only when the filename extension is not in the image-extension set; when the
extension is an image extension, the extension wins and IMAGE is returned
(the amended form of the claim; see `c2_counterexample`). -/
theorem c2_classify_total_and_precedence (mime name : String) :
    (guessMediaTypeCore mime name = .IMAGE ∨ guessMediaTypeCore mime name = .VIDEO ∨
      guessMediaTypeCore mime name = .EXTERNAL_VIDEO) ∧
    (jsStartsWith (jsToLower mime) "image/" = true → guessMediaTypeCore mime name = .IMAGE) ∧
    (jsStartsWith (jsToLower mime) "video/" = true → extOf name ∉ IMAGE_EXT →
      guessMediaTypeCore mime name = .VIDEO) ∧
    (jsStartsWith (jsToLower mime) "video/" = true → extOf name ∈ IMAGE_EXT →
      guessMediaTypeCore mime name = .IMAGE) := by
  refine ⟨?_, ?_, ?_, ?_⟩
  · cases h : guessMediaTypeCore mime name <;> simp
  · intro h
    simp [guessMediaTypeCore, h]
  · intro hv hni
    simp [guessMediaTypeCore, hv, hni, not_image_of_video _ hv]
  · intro hv hi
    simp [guessMediaTypeCore, hi]

/-- C2 witness: the theorem applied at concrete inputs. -/
theorem c2_classify_witness :
    guessMediaTypeCore "image/png" "clip.mp4" = .IMAGE ∧
    guessMediaTypeCore "video/quicktime" "clip.mov" = .VIDEO ∧
    guessMediaTypeCore "video/mp4" "thumb.jpg" = .IMAGE :=
  ⟨(c2_classify_total_and_precedence "image/png" "clip.mp4").2.1 (by decide),
   (c2_classify_total_and_precedence "video/quicktime" "clip.mov").2.2.1 (by decide) (by decide),
   (c2_classify_total_and_precedence "video/mp4" "thumb.jpg").2.2.2 (by decide) (by decide)⟩

/-- C2 counterexample: the declared MIME type `video/mp4` starts with
`video/`, the filename `thumb.jpg` has an image extension, yet the classifier
returns IMAGE, not VIDEO — the extension beats the conflicting MIME prefix,
refuting "MIME prefix wins over a conflicting extension". -/
theorem c2_counterexample :
    jsStartsWith (jsToLower "video/mp4") "video/" = true ∧
    extOf "thumb.jpg" ∈ IMAGE_EXT ∧
    guessMediaTypeCore "video/mp4" "thumb.jpg" ≠ .VIDEO ∧
    guessMediaTypeCore "video/mp4" "thumb.jpg" = .IMAGE := by
  decide

/-- When every attempt from `attempt` through `maxR` fails with a retryable
HTTP status, `gql` makes exactly the remaining `maxR - attempt + 1` attempts
and surfaces the HTTP error of the last one. -/
theorem gql_exhaust_aux (base maxR : Nat) (o : Nat → AttemptOutcome) :
    ∀ (k attempt : Nat), maxR - attempt = k → 1 ≤ attempt → attempt ≤ maxR →
    (∀ n, attempt ≤ n → n ≤ maxR → ∃ s, o n = .httpErr s ∧ RETRYABLE.contains s = true) →
    (gql maxR base o attempt).attempts = maxR - attempt + 1 ∧
    ∃ s, (gql maxR base o attempt).result = .error (.gqlHttp s) := by
  intro k
  induction k with
  | zero =>
    intro attempt hk h1 h2 hall
    have heq : attempt = maxR := by omega
    subst heq
    obtain ⟨s, hs, _⟩ := hall attempt le_rfl le_rfl
    rw [gql, hs]
    dsimp only
    have hneg : ¬(RETRYABLE.contains s = true ∧ attempt < attempt) := by
      intro hc
      exact absurd hc.2 (lt_irrefl _)
    rw [dif_neg hneg]
    refine ⟨?_, s, rfl⟩
    show 1 = attempt - attempt + 1
    omega
  | succ k ih =>
    intro attempt hk h1 h2 hall
    have hlt : attempt < maxR := by omega
    obtain ⟨s, hs, hmem⟩ := hall attempt le_rfl h2
    rw [gql, hs]
    dsimp only
    rw [dif_pos (⟨hmem, hlt⟩ : RETRYABLE.contains s = true ∧ attempt < maxR)]
    obtain ⟨ha, s', hres⟩ :=
      ih (attempt + 1) (by omega) (by omega) (by omega)
        (fun n hn1 hn2 => hall n (by omega) hn2)
    refine ⟨?_, s', ?_⟩
    · show (gql maxR base o (attempt + 1)).attempts + 1 = maxR - attempt + 1
      rw [ha]
      omega
    · show (gql maxR base o (attempt + 1)).result = Except.error (SyncError.gqlHttp s')
      exact hres

/-- C3: a `gql` call whose first two attempts fail with HTTP 503 and whose
third succeeds returns the success after exactly 2 delayed retries, with
delays `base` and `base * 2` (that is `base * 2 ^ (n-1)` before retry `n`);
and a call whose attempts all fail with a retryable status makes exactly the
configured `maxR` attempts, no more, and surfaces the HTTP error. -/
theorem c3_retry_backoff (base d maxR : Nat) (o1 o2 : Nat → AttemptOutcome)
    (h1 : o1 1 = .httpErr 503) (h2 : o1 2 = .httpErr 503) (h3 : o1 3 = .ok d)
    (hmax : 1 ≤ maxR)
    (hall : ∀ n, 1 ≤ n → n ≤ maxR → ∃ s, o2 n = .httpErr s ∧ RETRYABLE.contains s = true) :
    gql 3 base o1 1 = ⟨.ok d, [base, base * 2], 3⟩ ∧
    ((gql maxR base o2 1).attempts = maxR ∧
      ∃ s, (gql maxR base o2 1).result = .error (.gqlHttp s)) := by
  constructor
  · have e3 : gql 3 base o1 3 = ⟨.ok d, [], 1⟩ := by
      rw [gql, h3]
    have e2 : gql 3 base o1 2 = ⟨.ok d, [base * 2], 2⟩ := by
      rw [gql, h2]
      dsimp only
      rw [dif_pos (by decide : RETRYABLE.contains 503 = true ∧ 2 < 3)]
      rw [show (2 : Nat) + 1 = 3 by rfl, e3]
      norm_num
    rw [gql, h1]
    dsimp only
    rw [dif_pos (by decide : RETRYABLE.contains 503 = true ∧ 1 < 3)]
    rw [show (1 : Nat) + 1 = 2 by rfl, e2]
    norm_num
  · have h := gql_exhaust_aux base maxR o2 (maxR - 1) 1 rfl le_rfl hmax hall
    refine ⟨?_, h.2⟩
    rw [h.1]
    omega

/-- C3 witness: the theorem applied to a concrete 503-503-success outcome
sequence and a concrete always-503 sequence, at the default 3 attempts. -/
theorem c3_retry_backoff_witness :
    gql 3 600 (fun n => if n ≤ 2 then .httpErr 503 else .ok 7) 1 = ⟨.ok 7, [600, 600 * 2], 3⟩ ∧
    ((gql 3 600 (fun _ => .httpErr 503) 1).attempts = 3 ∧
      ∃ s, (gql 3 600 (fun _ => .httpErr 503) 1).result = .error (.gqlHttp s)) :=
  c3_retry_backoff 600 7 3 (fun n => if n ≤ 2 then .httpErr 503 else .ok 7)
    (fun _ => .httpErr 503) (by decide) (by decide) (by decide) (by decide)
    (fun n _ _ => ⟨503, rfl, by decide⟩)

/-- The batch sequence of the slicing loop, for positive batch size: there are
`⌈M/B⌉` chunks, each of size at most `B`, all but possibly the last of size
exactly `B`, and their concatenation is the original list in order. -/
theorem chunks_facts (B : Nat) (hB : 0 < B) (l : List MediaInput) :
    (chunks B l).length = (l.length + B - 1) / B ∧
    (∀ c ∈ chunks B l, c.length ≤ B) ∧
    (∀ c ∈ (chunks B l).dropLast, c.length = B) ∧
    (chunks B l).flatten = l := by
  induction l using chunks.induct B with
  | case1 =>
    rw [chunks, dif_pos rfl]
    refine ⟨?_, by simp, by simp, by simp⟩
    simp only [List.length_nil]
    exact (Nat.div_eq_of_lt (by omega)).symm
  | case2 l hl hB0 =>
    exact absurd hB0 (by omega)
  | case3 l hl hB0 ih =>
    rw [chunks, dif_neg hl, dif_neg hB0]
    obtain ⟨ih1, ih2, ih3, ih4⟩ := ih
    have hpos : 0 < l.length := List.length_pos.mpr hl
    refine ⟨?_, ?_, ?_, ?_⟩
    · simp only [List.length_cons, ih1, List.length_drop]
      have key : (l.length + B - 1) / B = (l.length - 1) / B + 1 := by
        rw [show l.length + B - 1 = (l.length - 1) + B by omega, Nat.add_div_right _ hB]
      by_cases hnb : l.length ≤ B
      · rw [show l.length - B = 0 by omega, key]
        rw [Nat.div_eq_of_lt (show 0 + B - 1 < B by omega),
          Nat.div_eq_of_lt (show l.length - 1 < B by omega)]
      · rw [show l.length - B + B - 1 = l.length - 1 by omega, key]
    · intro c hc
      rcases List.mem_cons.mp hc with h | h
      · subst h
        rw [List.length_take]
        omega
      · exact ih2 c h
    · intro c hc
      by_cases hd : l.drop B = []
      · have hcd : chunks B (l.drop B) = [] := by
          rw [hd, chunks, dif_pos rfl]
        rw [hcd] at hc
        simp at hc
      · have hne : chunks B (l.drop B) ≠ [] := by
          rw [chunks, dif_neg hd, dif_neg hB0]
          simp
        rw [List.dropLast_cons_of_ne_nil hne] at hc
        rcases List.mem_cons.mp hc with h | h
        · subst h
          rw [List.length_take]
          have hlen : B < l.length := by
            by_contra hcon
            exact hd (List.drop_eq_nil_of_le (by omega))
          omega
        · exact ih3 c h
    · simp only [List.flatten_cons, ih4, List.take_append_drop]

/-- When every attach mutation succeeds, the attach loop issues exactly one
mutation per chunk, in chunk order, and accumulates the chunk lengths. -/
theorem attachLoop_ok (env : GroupEnv) (pid : String) (total : Nat)
    (hok : ∀ k, env.attach k = none) :
    ∀ (cs : List (List MediaInput)) (k : Nat),
      (attachLoop env pid total cs k).1.filter isAttachCall =
        cs.map (fun c => Event.attachCall pid c) ∧
      (attachLoop env pid total cs k).2.1 = (cs.map List.length).sum ∧
      (attachLoop env pid total cs k).2.2 = none := by
  intro cs
  induction cs with
  | nil =>
    intro k
    simp [attachLoop]
  | cons c cs ih =>
    intro k
    obtain ⟨e1, e2, e3⟩ := ih (k + 1)
    simp only [attachLoop, hok k]
    refine ⟨?_, ?_, ?_⟩
    · simp [List.filter, isAttachCall, e1]
    · simp [e2]
    · simp [e3]

/-- C5: for a per-group diff result `toAttach` of size `M` and batch size
`B > 0`, processing the group (live mode, resolved product, all mutations
succeeding) issues exactly the mutation sequence `chunks B toAttach`, whose
length is `⌈M/B⌉`, with every batch of size ≤ B, all but possibly the last of
size exactly B, and the batches concatenate back to `toAttach` in source
order. -/
theorem c5_batch_slicing (B : Nat) (g : GroupTask) (pid : String)
    (edges : List (Option String)) (hB : 0 < B)
    (hres : g.env.resolve = .ok (some pid)) (hedg : g.env.mediaEdges = .ok edges)
    (hok : ∀ k, g.env.attach k = none)
    (hne : toAttachOf (getExistingMediaAlts edges) g.medias ≠ []) :
    ((processGroup false B g).1.filter isAttachCall =
      (chunks B (toAttachOf (getExistingMediaAlts edges) g.medias)).map
        (fun c => Event.attachCall pid c)) ∧
    (chunks B (toAttachOf (getExistingMediaAlts edges) g.medias)).length =
      ((toAttachOf (getExistingMediaAlts edges) g.medias).length + B - 1) / B ∧
    (∀ c ∈ chunks B (toAttachOf (getExistingMediaAlts edges) g.medias), c.length ≤ B) ∧
    (∀ c ∈ (chunks B (toAttachOf (getExistingMediaAlts edges) g.medias)).dropLast,
      c.length = B) ∧
    (chunks B (toAttachOf (getExistingMediaAlts edges) g.medias)).flatten =
      toAttachOf (getExistingMediaAlts edges) g.medias := by
  obtain ⟨f1, f2, f3, f4⟩ := chunks_facts B hB (toAttachOf (getExistingMediaAlts edges) g.medias)
  refine ⟨?_, f1, f2, f3, f4⟩
  obtain ⟨a1, _, _⟩ :=
    attachLoop_ok g.env pid (toAttachOf (getExistingMediaAlts edges) g.medias).length hok
      (chunks B (toAttachOf (getExistingMediaAlts edges) g.medias)) 1
  simp only [processGroup, hres, hedg]
  rw [if_neg (by simpa [List.isEmpty_iff] using hne), if_neg (by simp)]
  exact a1

/-- C5 witness: a concrete group of three new media at batch size 2 issues
two batches, sized 2 and 1, in source order. -/
theorem c5_batch_slicing_witness :
    ((processGroup false 2
      ⟨"CS1", [⟨"a", .IMAGE, "u1"⟩, ⟨"b", .IMAGE, "u2"⟩, ⟨"c", .VIDEO, "u3"⟩],
        ⟨.ok (some "gid1"), .ok [], fun _ => none⟩⟩).1.filter isAttachCall =
      (chunks 2 (toAttachOf (getExistingMediaAlts [])
        [⟨"a", .IMAGE, "u1"⟩, ⟨"b", .IMAGE, "u2"⟩, ⟨"c", .VIDEO, "u3"⟩])).map
        (fun c => Event.attachCall "gid1" c)) ∧
    (chunks 2 (toAttachOf (getExistingMediaAlts [])
      [⟨"a", .IMAGE, "u1"⟩, ⟨"b", .IMAGE, "u2"⟩, ⟨"c", .VIDEO, "u3"⟩])).length =
      ((toAttachOf (getExistingMediaAlts [])
        [⟨"a", .IMAGE, "u1"⟩, ⟨"b", .IMAGE, "u2"⟩, ⟨"c", .VIDEO, "u3"⟩]).length + 2 - 1) / 2 :=
  ⟨(c5_batch_slicing 2
      ⟨"CS1", [⟨"a", .IMAGE, "u1"⟩, ⟨"b", .IMAGE, "u2"⟩, ⟨"c", .VIDEO, "u3"⟩],
        ⟨.ok (some "gid1"), .ok [], fun _ => none⟩⟩ "gid1" [] (by decide) rfl rfl
      (fun _ => rfl) (by decide)).1,
   (c5_batch_slicing 2
      ⟨"CS1", [⟨"a", .IMAGE, "u1"⟩, ⟨"b", .IMAGE, "u2"⟩, ⟨"c", .VIDEO, "u3"⟩],
        ⟨.ok (some "gid1"), .ok [], fun _ => none⟩⟩ "gid1" [] (by decide) rfl rfl
      (fun _ => rfl) (by decide)).2.1⟩

/-- JS `a || ''` is the identity on actual strings. -/
theorem jsOrD_some_empty (s : String) : jsOrD (some s) "" = s := by
  by_cases h : s = "" <;> simp [jsOrD, h]

/-- The diff filter, with the inner `m.alt || ''` simplified away. -/
theorem toAttachOf_eq (ex : List String) (ms : List MediaInput) :
    toAttachOf ex ms = ms.filter (fun m => !(ex.contains (jsTrim m.alt))) := by
  simp [toAttachOf, jsOrD_some_empty]

/-- A list splits into the elements a predicate drops and those it keeps. -/
theorem length_filter_not_add (p : MediaInput → Bool) (l : List MediaInput) :
    (l.filter (fun a => !p a)).length + (l.filter p).length = l.length := by
  induction l with
  | nil => simp
  | cons a l ih =>
    by_cases h : p a <;> simp [h, ← ih] <;> omega

/-- Every attach mutation the attach loop issues targets the resolved product
and carries one of the loop's chunks — whatever the mutation outcomes are. -/
theorem attachLoop_calls (env : GroupEnv) (pid : String) (total : Nat) :
    ∀ (cs : List (List MediaInput)) (k : Nat) (pid' : String) (batch : List MediaInput),
      Event.attachCall pid' batch ∈ (attachLoop env pid total cs k).1 →
      pid' = pid ∧ batch ∈ cs := by
  intro cs
  induction cs with
  | nil =>
    intro k pid' batch h
    simp [attachLoop] at h
  | cons c cs ih =>
    intro k pid' batch h
    cases henv : env.attach k with
    | some e =>
      simp only [attachLoop, henv, List.mem_singleton] at h
      cases h
      exact ⟨rfl, List.mem_cons_self _ _⟩
    | none =>
      simp only [attachLoop, henv, List.mem_cons] at h
      rcases h with h | h | h
      · cases h
        exact ⟨rfl, List.mem_cons_self _ _⟩
      · cases h
      · obtain ⟨h1, h2⟩ := ih (k + 1) pid' batch h
        exact ⟨h1, List.mem_cons_of_mem _ h2⟩

/-- C1: for a processed group with a resolved product, a media input is in the
diff result iff its trimmed alt is not among the fetched existing alt-texts;
the skipped counter increases by exactly the number of inputs whose trimmed
alt is in that set; and every attach mutation issued carries only inputs of
the group whose trimmed alt is absent from the set. -/
theorem c1_attach_idempotence (dryRun : Bool) (B : Nat) (g : GroupTask) (pid : String)
    (edges : List (Option String)) (hB : 0 < B)
    (hres : g.env.resolve = .ok (some pid)) (hedg : g.env.mediaEdges = .ok edges) :
    (∀ m, m ∈ toAttachOf (getExistingMediaAlts edges) g.medias ↔
      m ∈ g.medias ∧ jsTrim m.alt ∉ getExistingMediaAlts edges) ∧
    (processGroup dryRun B g).2.2.1 =
      (g.medias.filter (fun m => (getExistingMediaAlts edges).contains (jsTrim m.alt))).length ∧
    (∀ pid' batch, Event.attachCall pid' batch ∈ (processGroup dryRun B g).1 →
      ∀ m ∈ batch, m ∈ g.medias ∧ jsTrim m.alt ∉ getExistingMediaAlts edges) := by
  have hmem : ∀ m, m ∈ toAttachOf (getExistingMediaAlts edges) g.medias ↔
      m ∈ g.medias ∧ jsTrim m.alt ∉ getExistingMediaAlts edges := by
    intro m
    rw [toAttachOf_eq]
    simp [List.mem_filter]
  have hskip : g.medias.length - (toAttachOf (getExistingMediaAlts edges) g.medias).length =
      (g.medias.filter
        (fun m => (getExistingMediaAlts edges).contains (jsTrim m.alt))).length := by
    rw [toAttachOf_eq]
    have := length_filter_not_add
      (fun m => (getExistingMediaAlts edges).contains (jsTrim m.alt)) g.medias
    omega
  refine ⟨hmem, ?_, ?_⟩
  · simp only [processGroup, hres, hedg]
    split_ifs with h1 h2
    · exact hskip
    · exact hskip
    · rcases hal : attachLoop g.env pid
        (toAttachOf (getExistingMediaAlts edges) g.medias).length
        (chunks B (toAttachOf (getExistingMediaAlts edges) g.medias)) 1 with ⟨evs, a, err⟩
      simp only [hal]
      exact hskip
  · intro pid' batch hb m hm
    simp only [processGroup, hres, hedg] at hb
    split_ifs at hb with h1 h2
    · simp at hb
    · simp at hb
    · rcases hal : attachLoop g.env pid
        (toAttachOf (getExistingMediaAlts edges) g.medias).length
        (chunks B (toAttachOf (getExistingMediaAlts edges) g.medias)) 1 with ⟨evs, a, err⟩
      rw [hal] at hb
      simp only at hb
      have hcall := attachLoop_calls g.env pid
        (toAttachOf (getExistingMediaAlts edges) g.medias).length
        (chunks B (toAttachOf (getExistingMediaAlts edges) g.medias)) 1 pid' batch
        (by rw [hal]; exact hb)
      have hflat := (chunks_facts B hB (toAttachOf (getExistingMediaAlts edges) g.medias)).2.2.2
      have hta : m ∈ toAttachOf (getExistingMediaAlts edges) g.medias := by
        rw [← hflat]
        exact List.mem_flatten.mpr ⟨batch, hcall.2, hm⟩
      exact (hmem m).mp hta

/-- C1 witness: a concrete group where one input duplicates an existing
trimmed alt and one is new. -/
theorem c1_attach_idempotence_witness :
    ((⟨"dup ", .IMAGE, "u2"⟩ : MediaInput) ∈
        toAttachOf (getExistingMediaAlts [some "dup", some " "])
          [⟨"new1", .IMAGE, "u1"⟩, ⟨"dup ", .IMAGE, "u2"⟩] ↔
      (⟨"dup ", .IMAGE, "u2"⟩ : MediaInput) ∈
          ([⟨"new1", .IMAGE, "u1"⟩, ⟨"dup ", .IMAGE, "u2"⟩] : List MediaInput) ∧
        jsTrim "dup " ∉ getExistingMediaAlts [some "dup", some " "]) ∧
    (processGroup false 8
      ⟨"CS1", [⟨"new1", .IMAGE, "u1"⟩, ⟨"dup ", .IMAGE, "u2"⟩],
        ⟨.ok (some "gidX"), .ok [some "dup", some " "], fun _ => none⟩⟩).2.2.1 =
      (([⟨"new1", .IMAGE, "u1"⟩, ⟨"dup ", .IMAGE, "u2"⟩] : List MediaInput).filter
        (fun m => (getExistingMediaAlts [some "dup", some " "]).contains (jsTrim m.alt))).length :=
  ⟨(c1_attach_idempotence false 8
      ⟨"CS1", [⟨"new1", .IMAGE, "u1"⟩, ⟨"dup ", .IMAGE, "u2"⟩],
        ⟨.ok (some "gidX"), .ok [some "dup", some " "], fun _ => none⟩⟩ "gidX"
      [some "dup", some " "] (by decide) rfl rfl).1 ⟨"dup ", .IMAGE, "u2"⟩,
   (c1_attach_idempotence false 8
      ⟨"CS1", [⟨"new1", .IMAGE, "u1"⟩, ⟨"dup ", .IMAGE, "u2"⟩],
        ⟨.ok (some "gidX"), .ok [some "dup", some " "], fun _ => none⟩⟩ "gidX"
      [some "dup", some " "] (by decide) rfl rfl).2.1⟩

/-- C10: the set of existing alt-texts never contains the empty string (alts
empty after trimming are filtered out when the set is built), so a media
input whose alt trims to the empty string is always classified as new and
lands in the diff result. -/
theorem c10_empty_trimmed_alt_always_new (edges : List (Option String))
    (medias : List MediaInput) :
    "" ∉ getExistingMediaAlts edges ∧
    (∀ m ∈ medias, jsTrim m.alt = "" →
      m ∈ toAttachOf (getExistingMediaAlts edges) medias) := by
  have hempty : "" ∉ getExistingMediaAlts edges := by
    intro h
    simp [getExistingMediaAlts, List.mem_dedup, List.mem_filter] at h
  refine ⟨hempty, ?_⟩
  intro m hm ht
  rw [toAttachOf_eq]
  refine List.mem_filter.mpr ⟨hm, ?_⟩
  rw [ht]
  simpa using hempty

/-- C10 witness: an input whose alt is all whitespace is kept even though the
product's media include blank alts. -/
theorem c10_empty_trimmed_alt_witness :
    "" ∉ getExistingMediaAlts [some " x ", some "  "] ∧
    (⟨"  ", .IMAGE, "u"⟩ : MediaInput) ∈
      toAttachOf (getExistingMediaAlts [some " x ", some "  "])
        [⟨"  ", .IMAGE, "u"⟩] :=
  ⟨(c10_empty_trimmed_alt_always_new [some " x ", some "  "] [⟨"  ", .IMAGE, "u"⟩]).1,
   (c10_empty_trimmed_alt_always_new [some " x ", some "  "] [⟨"  ", .IMAGE, "u"⟩]).2
     ⟨"  ", .IMAGE, "u"⟩ (by decide) (by decide)⟩

/-- In simulate-only mode a group's processing issues no attach mutation and
adds nothing to the attached counter. -/
theorem processGroup_dry (B : Nat) (g : GroupTask) :
    (∀ pid batch, Event.attachCall pid batch ∉ (processGroup true B g).1) ∧
    (processGroup true B g).2.1 = 0 := by
  rcases hres : g.env.resolve with e | pid
  · simp [processGroup, hres]
  rcases pid with _ | pid
  · simp [processGroup, hres]
  rcases hedg : g.env.mediaEdges with e | edges
  · simp [processGroup, hres, hedg]
  by_cases hne : (toAttachOf (getExistingMediaAlts edges) g.medias).isEmpty
  · simp [processGroup, hres, hedg, hne]
  · simp [processGroup, hres, hedg, hne]

/-- In simulate-only mode the whole group loop issues no attach mutation and
the attached total stays 0. -/
theorem runGroups_dry (B : Nat) (tasks : List GroupTask) :
    (∀ pid batch, Event.attachCall pid batch ∉ (runGroups true B tasks).events) ∧
    (runGroups true B tasks).attached = 0 := by
  induction tasks with
  | nil => simp [runGroups]
  | cons t ts ih =>
    obtain ⟨hpt, hat⟩ := processGroup_dry B t
    rcases hp : processGroup true B t with ⟨evs, a, s, err⟩
    have hevs : evs = (processGroup true B t).1 := by rw [hp]
    have ha : a = (processGroup true B t).2.1 := by rw [hp]
    cases err with
    | none =>
      simp only [runGroups, hp]
      constructor
      · intro pid batch hmem
        rcases List.mem_append.mp hmem with h | h
        · exact hpt pid batch (hevs ▸ h)
        · exact ih.1 pid batch h
      · simp only [ha, hat, ih.2]
    | some e =>
      simp only [runGroups, hp]
      exact ⟨fun pid batch hmem => hpt pid batch (hevs ▸ hmem), ha ▸ hat⟩

/-- When the group loop finishes without an error, every processed group's
events appear in the run's event trace. -/
theorem runGroups_mem_events (dryRun : Bool) (B : Nat) :
    ∀ (tasks : List GroupTask) (g : GroupTask), g ∈ tasks →
      (runGroups dryRun B tasks).err = none →
      ∀ ev ∈ (processGroup dryRun B g).1, ev ∈ (runGroups dryRun B tasks).events := by
  intro tasks
  induction tasks with
  | nil =>
    intro g hg
    simp at hg
  | cons t ts ih =>
    intro g hg hok ev hev
    rcases hp : processGroup dryRun B t with ⟨evs, a, s, err⟩
    cases err with
    | some e =>
      rw [runGroups, hp] at hok
      simp at hok
    | none =>
      rw [runGroups, hp] at hok ⊢
      simp only at hok ⊢
      rcases List.mem_cons.mp hg with h | h
      · subst h
        exact List.mem_append_left _ (by rw [hp] at hev; exact hev)
      · exact List.mem_append_right _ (ih g h hok ev hev)

/-- In simulate-only mode a group with a resolved product and a non-empty
diff result reports the count it would have attached. -/
theorem processGroup_dry_would (B : Nat) (g : GroupTask) (pid : String)
    (edges : List (Option String))
    (hres : g.env.resolve = .ok (some pid)) (hedg : g.env.mediaEdges = .ok edges)
    (hne : toAttachOf (getExistingMediaAlts edges) g.medias ≠ []) :
    (processGroup true B g).1 =
      [Event.dryRunWould g.code (toAttachOf (getExistingMediaAlts edges) g.medias).length] := by
  simp only [processGroup, hres, hedg]
  rw [if_neg (by simpa [List.isEmpty_iff] using hne)]
  simp

/-- C7: with the simulate-only flag set, no attach mutation is ever issued in
the whole run, the attached total of the run (and of its summary line) is 0,
and each group that resolves to a product and has a non-empty diff result
reports the count it would have attached. -/
theorem c7_dry_run (B : Nat) (tasks : List GroupTask) :
    (∀ pid batch, Event.attachCall pid batch ∉ (runMain true B tasks).events) ∧
    (runMain true B tasks).attached = 0 ∧
    (Event.summary 0 (runMain true B tasks).skipped ∈ (runMain true B tasks).events ∨
      (runMain true B tasks).err ≠ none) ∧
    (∀ g ∈ tasks, ∀ pid edges,
      g.env.resolve = .ok (some pid) → g.env.mediaEdges = .ok edges →
      (runMain true B tasks).err = none →
      toAttachOf (getExistingMediaAlts edges) g.medias ≠ [] →
      Event.dryRunWould g.code (toAttachOf (getExistingMediaAlts edges) g.medias).length
        ∈ (runMain true B tasks).events) := by
  obtain ⟨hno, hzero⟩ := runGroups_dry B tasks
  cases herr : (runGroups true B tasks).err with
  | some e =>
    refine ⟨?_, ?_, ?_, ?_⟩
    · intro pid batch hmem
      rw [runMain, herr] at hmem
      exact hno pid batch hmem
    · rw [runMain, herr]
      exact hzero
    · right
      rw [runMain, herr]
      simp
    · intro g hg pid edges h1 h2 h3
      rw [runMain, herr] at h3
      simp at h3
  | none =>
    refine ⟨?_, ?_, ?_, ?_⟩
    · intro pid batch hmem
      rw [runMain, herr] at hmem
      rcases List.mem_append.mp hmem with h | h
      · exact hno pid batch h
      · simp at h
    · rw [runMain, herr]
      exact hzero
    · left
      rw [runMain, herr]
      simp only [hzero]
      exact List.mem_append_right _ (List.mem_singleton.mpr rfl)
    · intro g hg pid edges h1 h2 _ hne
      rw [runMain, herr]
      refine List.mem_append_left _ ?_
      have := runGroups_mem_events true B tasks g hg herr
      apply this
      rw [processGroup_dry_would B g pid edges h1 h2 hne]
      exact List.mem_singleton.mpr rfl

/-- C7 witness: one concrete dry-run group with a non-empty diff. -/
theorem c7_dry_run_witness :
    (Event.attachCall "gid" [⟨"a", .IMAGE, "u"⟩] ∉
      (runMain true 8 [⟨"CS1", [⟨"a", .IMAGE, "u"⟩],
        ⟨.ok (some "gid"), .ok [], fun _ => none⟩⟩]).events) ∧
    (runMain true 8 [⟨"CS1", [⟨"a", .IMAGE, "u"⟩],
      ⟨.ok (some "gid"), .ok [], fun _ => none⟩⟩]).attached = 0 ∧
    Event.dryRunWould "CS1"
        (toAttachOf (getExistingMediaAlts []) [⟨"a", .IMAGE, "u"⟩]).length ∈
      (runMain true 8 [⟨"CS1", [⟨"a", .IMAGE, "u"⟩],
        ⟨.ok (some "gid"), .ok [], fun _ => none⟩⟩]).events :=
  ⟨(c7_dry_run 8 [⟨"CS1", [⟨"a", .IMAGE, "u"⟩],
      ⟨.ok (some "gid"), .ok [], fun _ => none⟩⟩]).1 "gid" [⟨"a", .IMAGE, "u"⟩],
   (c7_dry_run 8 [⟨"CS1", [⟨"a", .IMAGE, "u"⟩],
      ⟨.ok (some "gid"), .ok [], fun _ => none⟩⟩]).2.1,
   (c7_dry_run 8 [⟨"CS1", [⟨"a", .IMAGE, "u"⟩],
      ⟨.ok (some "gid"), .ok [], fun _ => none⟩⟩]).2.2.2
     ⟨"CS1", [⟨"a", .IMAGE, "u"⟩], ⟨.ok (some "gid"), .ok [], fun _ => none⟩⟩
     (List.mem_singleton.mpr rfl) "gid" [] rfl rfl (by decide) (by decide)⟩

/-- The group loop up to the first failing group: the failing group's error
aborts the loop, and the result is independent of every later group. -/
theorem runGroups_append_abort (dryRun : Bool) (B : Nat) :
    ∀ (pre : List GroupTask) (g : GroupTask) (post : List GroupTask) (e : SyncError),
      (runGroups dryRun B pre).err = none →
      (processGroup dryRun B g).2.2.2 = some e →
      runGroups dryRun B (pre ++ g :: post) =
        ⟨(runGroups dryRun B pre).events ++ (processGroup dryRun B g).1,
         (runGroups dryRun B pre).attached + (processGroup dryRun B g).2.1,
         (runGroups dryRun B pre).skipped + (processGroup dryRun B g).2.2.1,
         some e⟩ := by
  intro pre
  induction pre with
  | nil =>
    intro g post e _ hg
    rcases hp : processGroup dryRun B g with ⟨evs, a, s, err⟩
    rw [hp] at hg
    simp only at hg
    subst hg
    simp [runGroups, hp]
  | cons t ts ih =>
    intro g post e hpre hg
    rcases hpt : processGroup dryRun B t with ⟨evs, a, s, err⟩
    cases err with
    | some e' =>
      rw [runGroups, hpt] at hpre
      simp at hpre
    | none =>
      have hpre' : (runGroups dryRun B ts).err = none := by
        rw [runGroups, hpt] at hpre
        simpa using hpre
      have hrec := ih g post e hpre' hg
      show runGroups dryRun B (t :: (ts ++ g :: post)) = _
      rw [runGroups, hpt, hrec]
      rw [runGroups, hpt]
      simp [List.append_assoc, Nat.add_assoc]

/-- C8: an unrecovered error while processing one group aborts the whole run:
the run's trace is exactly the trace of the earlier groups plus the failing
group's own events (independent of every later group, so no later group is
processed and no summary is printed), and the process exits with status 1. -/
theorem c8_whole_run_abort (dryRun : Bool) (B : Nat) (pre : List GroupTask)
    (g : GroupTask) (post : List GroupTask) (e : SyncError)
    (hpre : (runGroups dryRun B pre).err = none)
    (hg : (processGroup dryRun B g).2.2.2 = some e) :
    runMain dryRun B (pre ++ g :: post) =
      ⟨(runGroups dryRun B pre).events ++ (processGroup dryRun B g).1,
       (runGroups dryRun B pre).attached + (processGroup dryRun B g).2.1,
       (runGroups dryRun B pre).skipped + (processGroup dryRun B g).2.2.1,
       some e⟩ ∧
    exitCode (runMain dryRun B (pre ++ g :: post)) = 1 := by
  have h := runGroups_append_abort dryRun B pre g post e hpre hg
  constructor
  · rw [runMain, h]
  · rw [runMain, h]
    rfl

/-- C8 witness: a failing first group followed by a healthy group; the run
aborts with exit status 1 and the healthy group leaves no trace. -/
theorem c8_whole_run_abort_witness :
    runMain false 8
      [⟨"CS2", [], ⟨.error (.gqlHttp 500), .ok [], fun _ => none⟩⟩,
       ⟨"CS3", [⟨"a", .IMAGE, "u"⟩], ⟨.ok (some "p3"), .ok [], fun _ => none⟩⟩] =
      ⟨[], 0, 0, some (.gqlHttp 500)⟩ ∧
    exitCode (runMain false 8
      [⟨"CS2", [], ⟨.error (.gqlHttp 500), .ok [], fun _ => none⟩⟩,
       ⟨"CS3", [⟨"a", .IMAGE, "u"⟩], ⟨.ok (some "p3"), .ok [], fun _ => none⟩⟩]) = 1 :=
  c8_whole_run_abort false 8 []
    ⟨"CS2", [], ⟨.error (.gqlHttp 500), .ok [], fun _ => none⟩⟩
    [⟨"CS3", [⟨"a", .IMAGE, "u"⟩], ⟨.ok (some "p3"), .ok [], fun _ => none⟩⟩]
    (.gqlHttp 500) rfl rfl

/-- C4 (amended): the Asset Source listing request gets no retry wrapper: a
response with any failing status — including the transient ones `gql` would
retry — fails the run immediately after a single request, with no backoff
delay. (Retry-with-backoff applies only to the Catalog Service `gql` calls.) -/
theorem c4_asset_source_no_retry (fname : String → String) (resps : Nat → GhlResponse)
    (hfail : (resps 1).ok = false) :
    fetchGhlFiles fname resps = ⟨.error (.ghlHttp (resps 1).status), 1, []⟩ := by
  simp [fetchGhlFiles, hfail]

/-- C4 witness: the theorem applied to a concrete 503 listing response. -/
theorem c4_asset_source_no_retry_witness :
    fetchGhlFiles (fun _ => "") (fun _ => ⟨false, 503, .notAList⟩) =
      ⟨.error (.ghlHttp 503), 1, []⟩ :=
  c4_asset_source_no_retry (fun _ => "") (fun _ => ⟨false, 503, .notAList⟩) rfl

/-- C4 counterexample: a listing request failing with the transient status 503
is not retried: exactly one request is made and the run fails with no backoff
delay, even though a second request would have succeeded — refuting "the
request is retried (with backoff) up to the configured maximum attempt
count". -/
theorem c4_counterexample :
    503 ∈ RETRYABLE ∧
    ((fun n => if n = 1 then (⟨false, 503, .notAList⟩ : GhlResponse)
        else ⟨true, 200, .topArray []⟩) 2).ok = true ∧
    (fetchGhlFiles (fun _ => "")
      (fun n => if n = 1 then ⟨false, 503, .notAList⟩ else ⟨true, 200, .topArray []⟩)) =
      ⟨.error (.ghlHttp 503), 1, []⟩ := by
  decide

/-- Elements that pass the location filter are non-null, so unwrapping them
preserves the count. -/
theorem filterMap_id_hasLoc_length (l : List (Option RawFile)) :
    ((l.filter hasLoc).filterMap id).length = (l.filter hasLoc).length := by
  induction l with
  | nil => simp
  | cons a l ih =>
    cases a with
    | none => simpa [hasLoc] using ih
    | some f =>
      by_cases h : hasLoc (some f) <;> simp [h, ih]

/-- C6 (amended): an element of the Asset Source listing that supplies no
asset location under `url`/`link`/`path` is silently dropped from the
normalized list and the run continues; the `SourceFormatError`-style failure
happens only when the body is neither an array nor `{files: [...]}`. -/
theorem c6_missing_location_dropped (fname : String → String) (resps : Nat → GhlResponse)
    (l : List (Option RawFile)) (hok : (resps 1).ok = true) :
    ((resps 1).body = .notAList →
      (fetchGhlFiles fname resps).result = .error .ghlShape) ∧
    ((resps 1).body = .topArray l →
      ∃ files, (fetchGhlFiles fname resps).result = .ok files ∧
        files.length = (l.filter hasLoc).length) ∧
    ((resps 1).body = .filesArray l →
      ∃ files, (fetchGhlFiles fname resps).result = .ok files ∧
        files.length = (l.filter hasLoc).length) := by
  refine ⟨?_, ?_, ?_⟩
  · intro hbody
    simp [fetchGhlFiles, hok, hbody]
  · intro hbody
    refine ⟨((l.filter hasLoc).filterMap id).map (normalizeFile fname), ?_, ?_⟩
    · simp [fetchGhlFiles, hok, hbody]
    · simp [filterMap_id_hasLoc_length]
  · intro hbody
    refine ⟨((l.filter hasLoc).filterMap id).map (normalizeFile fname), ?_, ?_⟩
    · simp [fetchGhlFiles, hok, hbody]
    · simp [filterMap_id_hasLoc_length]

/-- C6 witness: a two-element listing with one located and one unlocated
element yields a one-element normalized list and no error. -/
theorem c6_missing_location_dropped_witness :
    ∃ files,
      (fetchGhlFiles (fun _ => "fb")
        (fun _ => ⟨true, 200,
          .topArray [some { name := some "x" }, some { url := some "U" }]⟩)).result =
        .ok files ∧
      files.length =
        (([some { name := some "x" }, some { url := some "U" }] :
          List (Option RawFile)).filter hasLoc).length :=
  (c6_missing_location_dropped (fun _ => "fb")
    (fun _ => ⟨true, 200, .topArray [some { name := some "x" }, some { url := some "U" }]⟩)
    [some { name := some "x" }, some { url := some "U" }] rfl).2.1 rfl

/-- C6 counterexample: an element with no `url`/`link`/`path` location does
not fail the run — the normalized result is `ok` (the element is dropped) —
refuting "causes the run to fail with a SourceFormatError". -/
theorem c6_counterexample :
    hasLoc (some { name := some "x" }) = false ∧
    (fetchGhlFiles (fun _ => "")
      (fun _ => ⟨true, 200, .topArray [some { name := some "x" }]⟩)).result = .ok [] := by
  decide

/-- C9 (amended): for a secret of length > 6, `mask` reveals exactly the first
3 and last 3 characters around the `***` separator; a non-empty secret of
length ≤ 6 maps to the fixed placeholder `***`; but the empty secret maps to
the distinct placeholder `(empty)` (see `c9_counterexample`). -/
theorem c9_mask_shape (s : String) :
    (s = "" → mask s = "(empty)") ∧
    (s ≠ "" → s.length ≤ 6 → mask s = "***") ∧
    (6 < s.length →
      (mask s).toList = s.toList.take 3 ++ ['*', '*', '*'] ++ s.toList.drop (s.length - 3)) := by
  refine ⟨?_, ?_, ?_⟩
  · intro h
    simp [mask, h]
  · intro h1 h2
    simp [mask, h1, h2]
  · intro h
    have h0 : s ≠ "" := by
      intro hc
      subst hc
      simp at h
    simp [mask, h0, Nat.not_le.mpr h, String.data_append]

/-- C9 witness: the theorem applied at concrete secrets of each shape. -/
theorem c9_mask_shape_witness :
    mask "" = "(empty)" ∧ mask "abc" = "***" ∧
    (mask "secretvalue").toList =
      ("secretvalue" : String).toList.take 3 ++ ['*', '*', '*'] ++
        ("secretvalue" : String).toList.drop (("secretvalue" : String).length - 3) :=
  ⟨(c9_mask_shape "").1 rfl,
   (c9_mask_shape "abc").2.1 (by decide) (by decide),
   (c9_mask_shape "secretvalue").2.2 (by decide)⟩

/-- C9 counterexample: two secrets of length ≤ 6 (one of them empty) receive
different outputs — `(empty)` vs `***` — refuting "one fixed redaction
placeholder (the same output for every such input) ... including when s is
empty". -/
theorem c9_counterexample :
    ("" : String).length ≤ 6 ∧ ("abc" : String).length ≤ 6 ∧ mask "" ≠ mask "abc" := by
  decide

end Canyonite
